import Mathlib

/-!
Shallow embedding of `src/log_monitor.py` (the log-monitor/notifier program)
and proofs about it.  Python byte strings are modelled as `List Nat` (each
entry a byte value), Python `str` values as `List Char` (a `str` is a sequence
of Unicode code points), and fallible Python code as `Except`/`Option`
computations.  Dictionaries (`os.environ`, `str.format` keyword arguments)
are association lists where a later binding shadows an earlier one, matching
`dict.update` semantics.
-/

namespace LogMonitor

/-- UTF-8 encoding of one character, as Python's `str.encode('utf-8')` does
for a single code point (Lean `Char` carries exactly the valid non-surrogate
scalar values that CPython produces for text read from files). -/
def utf8EncodeChar (c : Char) : List Nat :=
  let n := c.toNat
  if n < 0x80 then [n]
  else if n < 0x800 then [0xC0 + n / 0x40, 0x80 + n % 0x40]
  else if n < 0x10000 then
    [0xE0 + n / 0x1000, 0x80 + n / 0x40 % 0x40, 0x80 + n % 0x40]
  else
    [0xF0 + n / 0x40000, 0x80 + n / 0x1000 % 0x40, 0x80 + n / 0x40 % 0x40,
     0x80 + n % 0x40]

/-- UTF-8 encoding of a Python `str`, as `str.encode('utf-8')`. -/
def utf8Encode (s : List Char) : List Nat :=
  (s.map utf8EncodeChar).flatten

/-- Continuation-byte test used by the strict UTF-8 decoder. -/
def isCont (b : Nat) : Bool :=
  decide (0x80 ≤ b) && decide (b ≤ 0xBF)

/-- Validity test for the second byte of a three-byte sequence (excludes
overlong encodings and surrogate code points, as CPython's strict decoder
does). -/
def cont3Ok (b1 b2 : Nat) : Bool :=
  if b1 = 0xE0 then decide (0xA0 ≤ b2) && decide (b2 ≤ 0xBF)
  else if b1 = 0xED then decide (0x80 ≤ b2) && decide (b2 ≤ 0x9F)
  else isCont b2

/-- Validity test for the second byte of a four-byte sequence (excludes
overlong encodings and code points above U+10FFFF). -/
def cont4Ok (b1 b2 : Nat) : Bool :=
  if b1 = 0xF0 then decide (0x90 ≤ b2) && decide (b2 ≤ 0xBF)
  else if b1 = 0xF4 then decide (0x80 ≤ b2) && decide (b2 ≤ 0x8F)
  else isCont b2

/-- The code point of a one-byte (ASCII) UTF-8 sequence. -/
def utf8Char1 (b1 : Nat) : Char := Char.ofNat b1

/-- The code point of a two-byte UTF-8 sequence. -/
def utf8Char2 (b1 b2 : Nat) : Char :=
  Char.ofNat ((b1 - 0xC0) * 0x40 + (b2 - 0x80))

/-- The code point of a three-byte UTF-8 sequence. -/
def utf8Char3 (b1 b2 b3 : Nat) : Char :=
  Char.ofNat ((b1 - 0xE0) * 0x1000 + (b2 - 0x80) * 0x40 + (b3 - 0x80))

/-- The code point of a four-byte UTF-8 sequence. -/
def utf8Char4 (b1 b2 b3 b4 : Nat) : Char :=
  Char.ofNat ((b1 - 0xF0) * 0x40000 + (b2 - 0x80) * 0x1000 +
    (b3 - 0x80) * 0x40 + (b4 - 0x80))

/-- Strict UTF-8 decoding, as Python's `bytes.decode('utf-8')`: `none`
models the `UnicodeDecodeError` raised on any malformed or truncated
sequence (a lead byte whose continuation bytes are missing, out of range,
overlong, a surrogate, or beyond U+10FFFF).  The four list shapes spell out
how many continuation bytes are still available. -/
def utf8Decode : List Nat → Option (List Char)
  | [] => some []
  | [b1] =>
    if b1 < 0x80 then (utf8Decode []).map (fun cs => utf8Char1 b1 :: cs)
    else none
  | [b1, b2] =>
    if b1 < 0x80 then (utf8Decode [b2]).map (fun cs => utf8Char1 b1 :: cs)
    else if b1 < 0xC2 then none
    else if b1 < 0xE0 then
      if isCont b2 then (utf8Decode []).map (fun cs => utf8Char2 b1 b2 :: cs)
      else none
    else none
  | [b1, b2, b3] =>
    if b1 < 0x80 then (utf8Decode [b2, b3]).map (fun cs => utf8Char1 b1 :: cs)
    else if b1 < 0xC2 then none
    else if b1 < 0xE0 then
      if isCont b2 then (utf8Decode [b3]).map (fun cs => utf8Char2 b1 b2 :: cs)
      else none
    else if b1 < 0xF0 then
      if cont3Ok b1 b2 && isCont b3 then
        (utf8Decode []).map (fun cs => utf8Char3 b1 b2 b3 :: cs)
      else none
    else none
  | b1 :: b2 :: b3 :: b4 :: rest =>
    if b1 < 0x80 then
      (utf8Decode (b2 :: b3 :: b4 :: rest)).map (fun cs => utf8Char1 b1 :: cs)
    else if b1 < 0xC2 then none
    else if b1 < 0xE0 then
      if isCont b2 then
        (utf8Decode (b3 :: b4 :: rest)).map (fun cs => utf8Char2 b1 b2 :: cs)
      else none
    else if b1 < 0xF0 then
      if cont3Ok b1 b2 && isCont b3 then
        (utf8Decode (b4 :: rest)).map (fun cs => utf8Char3 b1 b2 b3 :: cs)
      else none
    else if b1 < 0xF5 then
      if cont4Ok b1 b2 && isCont b3 && isCont b4 then
        (utf8Decode rest).map (fun cs => utf8Char4 b1 b2 b3 b4 :: cs)
      else none
    else none

/-- Python `str.split` on the single-character separator `'\n'`: every
occurrence splits, empty parts are kept, and the empty string yields one
empty part. -/
def splitOnNl : List Char → List (List Char)
  | [] => [[]]
  | c :: rest =>
    if c = '\n' then [] :: splitOnNl rest
    else
      match splitOnNl rest with
      | [] => [[c]]
      | h :: t => (c :: h) :: t

/-- Python `'\n'.join(parts)`. -/
def joinNl : List (List Char) → List Char
  | [] => []
  | [x] => x
  | x :: y :: t => x ++ '\n' :: joinNl (y :: t)

/-- Per-file tracking state: the entries `self.file_positions[path]` and
`self.file_sizes[path]` of `LogMonitor` for one tracked file (`file_sizes`
is written by the source but never read back; it is kept for fidelity). -/
structure MonitorState where
  position : Nat
  lastSize : Nat
deriving DecidableEq, Repr

/-- The capped unread chunk `raw_content` that `read_new_content` reads:
`f.seek(last_position); f.read(bytes_to_read)` with
`bytes_to_read = min(current_size - last_position, 1024 * 1024)`. -/
def chunkOf (content : List Nat) (position : Nat) : List Nat :=
  (content.drop position).take (min (content.length - position) (1024 * 1024))

/-- The exception that can escape the body of the `try` block in
`read_new_content` given in-memory file contents: the strict
`bytes.decode('utf-8')` call raising `UnicodeDecodeError`. -/
inductive ReadError where
  | unicodeDecodeError
deriving DecidableEq, Repr

/-- The line-splitting and offset-advance logic applied to the decoded chunk
`c` (read starting at `last_position`, `rawLen` raw bytes): the
`content.endswith('\n')` branch emits all parts of `content[:-1].split('\n')`
and advances by the full chunk length; otherwise the complete lines
`lines[:-1]` are emitted and the offset advances by
`len(('\n'.join(lines[:-1]) + '\n').encode('utf-8'))`, or nothing happens
when the chunk holds no separator at all. -/
def splitChunk (c : List Char) (last_position rawLen : Nat) :
    List (List Char) × Nat :=
  if c.getLast? = some '\n' then
    (splitOnNl c.dropLast, last_position + rawLen)
  else
    let lines := splitOnNl c
    if 1 < lines.length then
      (lines.dropLast,
       last_position + (utf8Encode (joinNl lines.dropLast ++ ['\n'])).length)
    else ([], last_position)

/-- Body of the `try` block of `LogMonitor.read_new_content` for an existing
file whose bytes are `content`: compute the unread range, cap it at 1 MiB,
read and strictly decode it, then split into lines and advance the offset
per `splitChunk`. -/
def read_new_content_attempt (content : List Nat) (st : MonitorState) :
    Except ReadError (List (List Char) × MonitorState) :=
  let current_size := content.length
  let last_position := st.position
  if current_size ≤ last_position then .ok ([], st)
  else
    let raw_content := chunkOf content last_position
    match utf8Decode raw_content with
    | none => .error .unicodeDecodeError
    | some c =>
      let r := splitChunk c last_position raw_content.length
      .ok (r.1, { position := r.2, lastSize := current_size })

/-- `LogMonitor.read_new_content`: `content = none` models
`os.path.exists(file_path)` being false (return `[]` untouched); otherwise
the `try` body runs and the `except Exception` handler turns a decode error
into a logged message plus an empty result with the state unchanged. -/
def read_new_content (content : Option (List Nat)) (st : MonitorState) :
    List (List Char) × MonitorState :=
  match content with
  | none => ([], st)
  | some c =>
    match read_new_content_attempt c st with
    | .error _ => ([], st)
    | .ok r => r

/-- `LogMonitor._register_file` for a path not yet tracked: the tracking
state starts at the file's current size when the file exists
(`content = some bytes`), else at 0. -/
def register_file (content : Option (List Nat)) : MonitorState :=
  match content with
  | some c => { position := c.length, lastSize := c.length }
  | none => { position := 0, lastSize := 0 }

/-- Python whitespace test for `str.strip()` (the ASCII whitespace
characters; the log lines under consideration are ASCII-framed text). -/
def isPySpace (c : Char) : Bool :=
  c == ' ' || c == '\t' || c == '\n' || c == '\r' || c == '\x0b' || c == '\x0c'

/-- Python `str.strip()`. -/
def strip (s : List Char) : List Char :=
  ((s.dropWhile isPySpace).reverse.dropWhile isPySpace).reverse

/-- Python `os.path.basename` on POSIX: the part after the last slash. -/
def basename (s : List Char) : List Char :=
  (s.reverse.takeWhile (fun c => c ≠ '/')).reverse

/-- Python `dict` lookup for a dict built as an association list where a
later binding shadows an earlier one (`dict.update` semantics). -/
def dictGet (vars : List (String × String)) (k : String) : Option String :=
  (vars.reverse.find? (fun p => p.1 == k)).map (fun p => p.2)

/-- Scanner for Python `str.format`: the first argument is `none` while in
literal text and `some acc` while inside a replacement field, `acc` holding
the field-name characters read so far in reverse. -/
def formatGo (vars : List (String × String)) :
    Option (List Char) → List Char → Except String (List Char)
  | none, [] => .ok []
  | none, '{' :: '{' :: rest => (formatGo vars none rest).map (fun r => '{' :: r)
  | none, '}' :: '}' :: rest => (formatGo vars none rest).map (fun r => '}' :: r)
  | none, '{' :: rest => formatGo vars (some []) rest
  | none, '}' :: _ => .error "ValueError"
  | none, c :: rest => (formatGo vars none rest).map (fun r => c :: r)
  | some _, [] => .error "ValueError"
  | some acc, '}' :: rest =>
    match dictGet vars (String.mk acc.reverse) with
    | some v => (formatGo vars none rest).map (fun r => v.data ++ r)
    | none => .error (String.mk acc.reverse)
  | some acc, c :: rest => formatGo vars (some (c :: acc)) rest

/-- Python `template.format(**vars)` restricted to the feature subset the
program's templates use: literal text, doubled-brace escapes and named
replacement fields `\x7bname\x7d`.  `.error name` models the `KeyError`
raised for a field absent from the keyword arguments, `.error "ValueError"`
the error for a stray or unterminated brace. -/
def formatTemplate (vars : List (String × String)) (template : List Char) :
    Except String (List Char) :=
  formatGo vars none template

/-- `LogMonitor.send_api_notification` with the ambient state made explicit:
`env` is `os.environ`, and `transport` is the outcome of the
`requests.post` call (`some status` a response with that HTTP status code,
`none` a transport exception).  The two `os.environ[...]` subscriptions
happen before the `try` block, so a missing key raises `KeyError`
(modelled as `.error`); inside the `try`, a non-200 status or an exception
is logged and yields `False`. -/
def send_api_notification (env : List (String × String)) (transport : Option Nat) :
    Except String Bool :=
  match dictGet env "API_KEY" with
  | none => .error "KeyError: API_KEY"
  | some _ =>
    match dictGet env "API_URL" with
    | none => .error "KeyError: API_URL"
    | some _ =>
      match transport with
      | some status => .ok (status == 200)
      | none => .ok false

/-- The `template_vars` dict built by `LogMonitor.alert`: the three built-ins
then `dict.update` with the match's named groups (later bindings shadow). -/
def alertVars (filename : List Char) (line_number : Nat) (line : List Char)
    (groupdict : List (String × String)) : List (String × String) :=
  [("filename", String.mk (basename filename)),
   ("line_number", toString line_number),
   ("match", String.mk (strip line))] ++ groupdict

/-- `LogMonitor.alert`: format the TTS message with `str.format` (a missing
template variable raises `KeyError`, which propagates — there is no handler
in `alert`), then send the API notification (whose own `KeyError` on missing
environment variables also propagates).  Returns the formatted message and
the delivery outcome. -/
def alert_run (env : List (String × String)) (transport : Option Nat)
    (filename : List Char) (line_number : Nat) (line : List Char)
    (template : List Char) (groupdict : List (String × String)) :
    Except String (List Char × Bool) := do
  let msg ← formatTemplate (alertVars filename line_number line groupdict) template
  let sent ← send_api_notification env transport
  return (msg, sent)

/-- Regular-expression abstract syntax for the fragment needed to witness
the matcher's semantics: literal text, concatenation, and named capture
groups `(?P<name>...)`.  `re.compile` of richer syntax is treated as
producing some such pattern; the matcher below gives the fragment Python's
unanchored leftmost `re.search` semantics. -/
inductive Pat where
  | lit : List Char → Pat
  | seq : Pat → Pat → Pat
  | group : String → Pat → Pat
deriving DecidableEq, Repr

/-- Anchored match of a pattern at the head of `s`: on success, the
remaining suffix and the named-capture dictionary (group name ↦ captured
substring), as `re.Match.groupdict` reports them. -/
def matchAt : Pat → List Char → Option (List Char × List (String × String))
  | .lit l, s => if l.isPrefixOf s then some (s.drop l.length, []) else none
  | .seq p q, s =>
    match matchAt p s with
    | none => none
    | some (s1, g1) =>
      match matchAt q s1 with
      | none => none
      | some (s2, g2) => some (s2, g1 ++ g2)
  | .group name p, s =>
    match matchAt p s with
    | none => none
    | some (s1, g) =>
      some (s1, g ++ [(name, String.mk (s.take (s.length - s1.length)))])

/-- A `re.Match` object as the program consumes it: the match's start
index, its matched text, and its `groupdict()`. -/
structure MatchObj where
  start : Nat
  matched : List Char
  groupdict : List (String × String)
deriving DecidableEq, Repr

/-- Unanchored search from index `i`: try an anchored match at each
successive position, returning the leftmost success — the semantics of
`re.Pattern.search`. -/
def searchAux (p : Pat) : Nat → List Char → Option MatchObj
  | i, s =>
    match matchAt p s with
    | some (rest, g) => some ⟨i, s.take (s.length - rest.length), g⟩
    | none =>
      match s with
      | [] => none
      | _ :: t => searchAux p (i + 1) t

/-- `pattern.search(line)` — unanchored, anywhere in the line. -/
def search (p : Pat) (line : List Char) : Option MatchObj :=
  searchAux p 0 line

/-- One entry of `self.pattern_configs`: compiled pattern, template, and the
pattern's source text. -/
structure PatternConfig where
  pattern : Pat
  template : List Char
  pattern_str : String
deriving DecidableEq, Repr

/-- `LogMonitor.check_patterns`: every configured rule is tried against the
line in configuration order, and each rule whose `search` succeeds
contributes one `(pattern_config, match_obj)` pair. -/
def check_patterns (configs : List PatternConfig) (line : List Char) :
    List (PatternConfig × MatchObj) :=
  match configs with
  | [] => []
  | cfg :: rest =>
    match search cfg.pattern line with
    | some m => (cfg, m) :: check_patterns rest line
    | none => check_patterns rest line

/-- Whether a pattern contains no named capture group. -/
def noNamedGroup : Pat → Bool
  | .lit _ => true
  | .seq p q => noNamedGroup p && noNamedGroup q
  | .group _ _ => false

/-- Python `enumerate(xs, i)`. -/
def enumerateFrom (i : Nat) : List α → List (Nat × α)
  | [] => []
  | x :: xs => (i, x) :: enumerateFrom (i + 1) xs

/-- The inner alert loop of `LogMonitor.monitor_files` for one line:
`for pattern_config, match_obj in matching_patterns: self.alert(...)`.
There is no per-alert handler, so the first alert that raises aborts the
whole loop (only `KeyboardInterrupt` is caught by `monitor_files`). -/
def process_matches (env : List (String × String)) (transport : Option Nat)
    (file_path : List Char) (line_number : Nat) (line : List Char) :
    List (PatternConfig × MatchObj) → Except String (List (List Char))
  | [] => .ok []
  | (cfg, m) :: rest => do
    let r ← alert_run env transport file_path line_number line cfg.template m.groupdict
    let more ← process_matches env transport file_path line_number line rest
    return (r.1 :: more)

/-- The per-line loop of `LogMonitor.monitor_files`:
`for line_num, line in enumerate(new_lines, 1)`, skipping lines whose
`strip()` is empty, and alerting for every matching pattern with
`line_number` argument `self.file_positions.get(file_path, 0) + line_num`
(`base` is that dictionary entry, already advanced by `read_new_content`). -/
def process_lines (env : List (String × String)) (transport : Option Nat)
    (file_path : List Char) (configs : List PatternConfig) (base : Nat) :
    List (Nat × List Char) → Except String (List (List Char))
  | [] => .ok []
  | (line_num, line) :: rest =>
    if strip line = [] then
      process_lines env transport file_path configs base rest
    else do
      let msgs ← process_matches env transport file_path (base + line_num) line
        (check_patterns configs line)
      let more ← process_lines env transport file_path configs base rest
      return (msgs ++ more)

/-- One tracked file's share of one iteration of the `monitor_files` loop:
read the new content (never raises), then run the per-line alert loop.  Any
exception escaping the alert pipeline propagates out of the loop body —
`monitor_files` catches only `KeyboardInterrupt`, so such an error ends the
monitoring loop and the process. -/
def process_file (env : List (String × String)) (transport : Option Nat)
    (configs : List PatternConfig) (file_path : List Char)
    (content : Option (List Nat)) (st : MonitorState) :
    Except String (List (List Char) × MonitorState) := do
  let r := read_new_content content st
  let msgs ← process_lines env transport file_path configs r.2.position
    (enumerateFrom 1 r.1)
  return (msgs, r.2)

/-- The fields of a Python `re.error` the diagnostic formatter consults:
`str(err)`, and the `lineno`/`colno`/`pos` attributes (each may be absent
or `None`, modelled as `none`). -/
structure ReError where
  msg : String
  lineno : Option Int
  colno : Option Int
  pos : Option Int
deriving DecidableEq, Repr

/-- Python `repr` of a string (`pattern_str!r`), for the printable content
regex sources are made of: quote choice as CPython does it, escaping the
backslash, the quote character and the common control characters. -/
def pyReprChar (quote : Char) (c : Char) : List Char :=
  if c = '\\' then [ '\\', '\\' ]
  else if c = quote then [ '\\', quote ]
  else if c = '\n' then [ '\\', 'n' ]
  else if c = '\r' then [ '\\', 'r' ]
  else if c = '\t' then [ '\\', 't' ]
  else [c]

/-- Python `repr(s)` for strings. -/
def pyRepr (s : String) : String :=
  let quote := if s.data.contains '\'' && !(s.data.contains '"') then '"' else '\''
  String.mk (quote :: (s.data.map (pyReprChar quote)).flatten ++ [quote])

/-- Python `str.splitlines()` for `'\n'`-separated text (the separator the
program uses): like `split('\n')` but the empty string gives no lines and a
trailing separator adds no empty final line. -/
def splitlines (s : List Char) : List (List Char) :=
  if s = [] then []
  else if s.getLast? = some '\n' then (splitOnNl s).dropLast
  else splitOnNl s

/-- `_format_regex_compile_error` from the source: the user-friendly
diagnostic shown when compiling `--regex` pattern number
`pattern_index + 1` fails with `err`. -/
def _format_regex_compile_error (pattern_index : Nat) (pattern_str : String)
    (err : ReError) : String :=
  let head := "Invalid regular expression for --regex #" ++
    toString (pattern_index + 1) ++ ": " ++ pyRepr pattern_str
  let lines :=
    if splitlines pattern_str.data = [] then [pattern_str.data]
    else splitlines pattern_str.data
  let lineno : Int :=
    match err.lineno with
    | none => 1
    | some ln => if ln < 1 ∨ (lines.length : Int) < ln then 1 else ln
  let colno : Option Int :=
    match err.colno with
    | some c => some c
    | none =>
      match err.pos with
      | some p => if 0 ≤ p then some (p + 1) else none
      | none => none
  let body :=
    if 1 ≤ lineno ∧ lineno ≤ (lines.length : Int) then
      let pre := "  Line " ++ toString lineno ++ ": "
      let line_text := String.mk (lines.getD (lineno.toNat - 1) [])
      let first := [pre ++ line_text]
      match colno with
      | some c =>
        if 0 < c then
          first ++ [String.mk (List.replicate (pre.length + (c - 1).toNat) ' ') ++ "^"]
        else first
      | none => first
    else []
  String.mk (joinNl (([head] ++ body ++ ["re.error: " ++ err.msg]).map String.data))

/-- The fatal construction-time errors of `LogMonitor.__init__`'s pattern
loop: the `ValueError` raised (with the formatted diagnostic) when
`re.compile` fails, and the `IndexError` from `tts_templates[i]` when there
are fewer templates than patterns. -/
inductive InitError where
  | valueError (msg : String)
  | indexError
deriving DecidableEq, Repr

/-- The pattern-compilation loop of `LogMonitor.__init__`:
`for i, pattern_str in enumerate(regex_patterns)`, compile each pattern
(`compile` stands for `re.compile`, the external regex engine), wrap a
compile failure in `ValueError(_format_regex_compile_error(...))`, pair the
compiled pattern with `tts_templates[i]`, and stop at the first error. -/
def compile_patterns (compile : String → Except ReError Pat)
    (tts_templates : List String) :
    Nat → List String → Except InitError (List PatternConfig)
  | _, [] => .ok []
  | i, p :: rest =>
    match compile p with
    | .error err => .error (.valueError (_format_regex_compile_error i p err))
    | .ok cp =>
      match tts_templates.get? i with
      | none => .error .indexError
      | some t =>
        (compile_patterns compile tts_templates (i + 1) rest).map
          (fun cs => { pattern := cp, template := t.data, pattern_str := p } :: cs)

/-- The startup path of `main` relevant to configuration errors: mismatched
`--regex`/`--template` counts abort through `parser.error` (process exit
status 2) before the monitor is built; a `ValueError` from the constructor
is printed and re-raised as `SystemExit(1)`.  `monitor.monitor_files()` —
the monitoring loop — runs only in the `.ok` case, so an `.error (code, msg)`
result is a process exit with the non-zero status `code` before the loop
starts. -/
def main_startup (compile : String → Except ReError Pat)
    (regex_patterns tts_templates : List String) :
    Except (Nat × String) (List PatternConfig) :=
  if regex_patterns.length ≠ tts_templates.length then
    .error (2, "Number of --template arguments must match number of --regex arguments")
  else
    match compile_patterns compile tts_templates 0 regex_patterns with
    | .error (.valueError msg) => .error (1, msg)
    | .error .indexError => .error (1, "IndexError: list index out of range")
    | .ok configs => .ok configs

/-- A sequence of `read_new_content` calls against successive snapshots of
one file's bytes, threading the tracking state (the poll cycles of
`monitor_files` restricted to one file). -/
def runReads : MonitorState → List (List Nat) → List (List (List Char)) × MonitorState
  | st, [] => ([], st)
  | st, c :: rest =>
    let r := read_new_content (some c) st
    let rr := runReads r.2 rest
    (r.1 :: rr.1, rr.2)

/-- The tracking state after `n` consecutive `read_new_content` calls on an
unchanged file. -/
def iterState (content : Option (List Nat)) (st : MonitorState) : Nat → MonitorState
  | 0 => st
  | n + 1 => (read_new_content content (iterState content st n)).2

/-- The lines emitted by call number `n + 1` in that sequence. -/
def iterLines (content : Option (List Nat)) (st : MonitorState) (n : Nat) :
    List (List Char) :=
  (read_new_content content (iterState content st n)).1

/-- A file whose unread range exceeds the 1 MiB cap with the capped chunk
boundary bisecting the 4-byte character U+1F600: one complete line of
`'a'`s, then an emoji line, appended as valid UTF-8. -/
def stallContent : List Nat :=
  List.replicate (1024 * 1024 - 2) 0x61 ++ [0x0A, 0xF0, 0x9F, 0x98, 0x80, 0x0A]

end LogMonitor

deriving instance DecidableEq for Except

namespace LogMonitor

theorem toNat_ofNat_valid (n : Nat) (h : n.isValidChar) :
    (Char.ofNat n).toNat = n := by
  simp only [Char.ofNat, h, dif_pos, Char.toNat, Char.ofNatAux]
  rfl

theorem read_eq_of_le {c : List Nat} {st : MonitorState}
    (h : c.length ≤ st.position) : read_new_content (some c) st = ([], st) := by
  simp [read_new_content, read_new_content_attempt, h]

theorem chunkOf_nil_of_le {c : List Nat} {p : Nat} (h : c.length ≤ p) :
    chunkOf c p = [] := by
  simp [chunkOf, Nat.sub_eq_zero_of_le h]

theorem read_eq_of_decode_none {c : List Nat} {st : MonitorState}
    (h : utf8Decode (chunkOf c st.position) = none) :
    read_new_content (some c) st = ([], st) := by
  by_cases hle : c.length ≤ st.position
  · exact read_eq_of_le hle
  · simp [read_new_content, read_new_content_attempt, hle, h]

theorem read_eq_of_decode_some {c : List Nat} {st : MonitorState}
    {cs : List Char} (hle : ¬ c.length ≤ st.position)
    (h : utf8Decode (chunkOf c st.position) = some cs) :
    read_new_content (some c) st =
      ((splitChunk cs st.position (chunkOf c st.position).length).1,
       { position := (splitChunk cs st.position (chunkOf c st.position).length).2,
         lastSize := c.length }) := by
  simp [read_new_content, read_new_content_attempt, hle, h]

theorem splitChunk_pos_le (c : List Char) (p L : Nat) :
    p ≤ (splitChunk c p L).2 := by
  unfold splitChunk
  split
  · simp
  · dsimp only
    split
    · simp
    · simp

theorem read_position_mono (content : Option (List Nat)) (st : MonitorState) :
    st.position ≤ (read_new_content content st).2.position := by
  match content with
  | none => simp [read_new_content]
  | some c =>
    by_cases hle : c.length ≤ st.position
    · simp [read_eq_of_le hle]
    · cases hdec : utf8Decode (chunkOf c st.position) with
      | none => simp [read_eq_of_decode_none hdec]
      | some cs =>
        rw [read_eq_of_decode_some hle hdec]
        exact splitChunk_pos_le cs st.position (chunkOf c st.position).length

/-- Claim C7: for every tracked file whose current size is at most the
recorded read offset (truncation or rotation), `read_new_content` returns
no lines, leaves the tracking state untouched, and takes the early-return
path of the `try` body — no byte range is read and no exception is
raised (in the `Nat` model a negative range cannot even be formed; the
early `current_size <= last_position` return is what the source relies on
for this). -/
theorem C7_truncation_returns_empty (c : List Nat) (st : MonitorState)
    (h : c.length ≤ st.position) :
    read_new_content (some c) st = ([], st) ∧
    read_new_content_attempt c st = .ok ([], st) := by
  refine ⟨read_eq_of_le h, ?_⟩
  simp [read_new_content_attempt, h]

/-- Witness for C7 at a concrete truncated file: 2 bytes on disk, offset 5. -/
theorem C7_truncation_returns_empty_witness :
    (([0x41, 0x42] : List Nat).length ≤ (5 : Nat)) ∧
    read_new_content (some [0x41, 0x42]) ⟨5, 7⟩ = ([], ⟨5, 7⟩) :=
  ⟨by decide, (C7_truncation_returns_empty [0x41, 0x42] ⟨5, 7⟩ (by decide)).1⟩

theorem check_patterns_eq_filterMap (configs : List PatternConfig)
    (line : List Char) :
    check_patterns configs line =
      configs.filterMap
        (fun cfg => (search cfg.pattern line).map (fun m => (cfg, m))) := by
  induction configs with
  | nil => simp [check_patterns]
  | cons cfg rest ih =>
    cases h : search cfg.pattern line with
    | none => simp [check_patterns, h, ih]
    | some m => simp [check_patterns, h, ih]

theorem searchAux_isSome_of_matchAt {p : Pat} {s : List Char} {j : Nat}
    (h : (matchAt p (s.drop j)).isSome) (i : Nat) :
    (searchAux p i s).isSome := by
  induction s generalizing i j with
  | nil =>
    rw [List.drop_nil] at h
    rw [searchAux]
    cases hm : matchAt p [] with
    | none => rw [hm] at h; simp at h
    | some r => simp [hm]
  | cons c t ih =>
    rw [searchAux]
    cases hm : matchAt p (c :: t) with
    | some r => simp
    | none =>
      simp only
      cases j with
      | zero => rw [List.drop_zero] at h; rw [hm] at h; simp at h
      | succ k => exact ih (j := k) (by simpa using h) (i + 1)

theorem matchAt_of_searchAux_isSome {p : Pat} {s : List Char} {i : Nat}
    (h : (searchAux p i s).isSome) :
    ∃ j, (matchAt p (s.drop j)).isSome := by
  induction s generalizing i with
  | nil =>
    rw [searchAux] at h
    cases hm : matchAt p [] with
    | none => rw [hm] at h; simp at h
    | some r => exact ⟨0, by simp [hm]⟩
  | cons c t ih =>
    rw [searchAux] at h
    cases hm : matchAt p (c :: t) with
    | some r => exact ⟨0, by simp [hm]⟩
    | none =>
      rw [hm] at h
      obtain ⟨j, hj⟩ := ih h
      exact ⟨j + 1, by simpa using hj⟩

theorem matchAt_groupdict_nil {p : Pat} {s r : List Char}
    {g : List (String × String)} (hp : noNamedGroup p = true)
    (h : matchAt p s = some (r, g)) : g = [] := by
  induction p generalizing s r g with
  | lit l =>
    rw [matchAt] at h
    split at h
    · cases h; rfl
    · cases h
  | seq p q ihp ihq =>
    rw [noNamedGroup, Bool.and_eq_true] at hp
    rw [matchAt] at h
    cases h1 : matchAt p s with
    | none => simp [h1] at h
    | some r1 =>
      obtain ⟨s1, g1⟩ := r1
      simp only [h1] at h
      cases h2 : matchAt q s1 with
      | none => simp [h2] at h
      | some r2 =>
        obtain ⟨s2, g2⟩ := r2
        simp only [h2, Option.some.injEq, Prod.mk.injEq] at h
        rw [← h.2, ihp hp.1 h1, ihq hp.2 h2]
        rfl
  | group name p ih =>
    rw [noNamedGroup] at hp
    cases hp

theorem search_groupdict_nil {p : Pat} {s : List Char} {m : MatchObj}
    (hp : noNamedGroup p = true) : ∀ {i : Nat}, searchAux p i s = some m →
    m.groupdict = [] := by
  induction s with
  | nil =>
    intro i h
    rw [searchAux] at h
    cases hm : matchAt p [] with
    | none => rw [hm] at h; cases h
    | some r =>
      rw [hm] at h
      cases h
      exact matchAt_groupdict_nil hp (by rw [hm])
  | cons c t ih =>
    intro i h
    rw [searchAux] at h
    cases hm : matchAt p (c :: t) with
    | some r =>
      rw [hm] at h
      cases h
      exact matchAt_groupdict_nil hp (by rw [hm])
    | none =>
      rw [hm] at h
      exact ih h

/-- Claim C9: `check_patterns` evaluates every configured rule against the
line in configuration order and returns one `(rule, match)` pair for each
rule whose unanchored search succeeds — all of them, in order (the
`filterMap` characterisation); the search succeeds exactly when an anchored
match exists at some position of the line (search-anywhere, not anchored);
and a rule without named capture groups yields an empty `groupdict`. -/
theorem C9_check_patterns_all_matches (configs : List PatternConfig)
    (line : List Char) :
    check_patterns configs line =
      configs.filterMap
        (fun cfg => (search cfg.pattern line).map (fun m => (cfg, m)))
    ∧ (∀ p : Pat, (search p line).isSome ↔ ∃ j, (matchAt p (line.drop j)).isSome)
    ∧ (∀ (p : Pat) (m : MatchObj), noNamedGroup p = true →
        search p line = some m → m.groupdict = []) := by
  refine ⟨check_patterns_eq_filterMap configs line, fun p => ⟨?_, ?_⟩, ?_⟩
  · exact fun h => matchAt_of_searchAux_isSome h
  · rintro ⟨j, hj⟩
    exact searchAux_isSome_of_matchAt hj 0
  · intro p m hp hm
    exact search_groupdict_nil hp hm

/-- Witness for C9: five literal rules, a line matching three of them —
exactly those three pairs come back, in configuration order, each with an
empty `groupdict`; and the rule matching mid-line shows the unanchored
semantics. -/
theorem C9_check_patterns_all_matches_witness :
    check_patterns
      [⟨Pat.lit "ERROR".data, "t1".data, "ERROR"⟩,
       ⟨Pat.lit "CRITICAL".data, "t2".data, "CRITICAL"⟩,
       ⟨Pat.lit "FATAL".data, "t3".data, "FATAL"⟩,
       ⟨Pat.lit "exception".data, "t4".data, "exception"⟩,
       ⟨Pat.lit "failed".data, "t5".data, "failed"⟩]
      "CRITICAL ERROR: failed login".data =
      [(⟨Pat.lit "ERROR".data, "t1".data, "ERROR"⟩, ⟨9, "ERROR".data, []⟩),
       (⟨Pat.lit "CRITICAL".data, "t2".data, "CRITICAL"⟩, ⟨0, "CRITICAL".data, []⟩),
       (⟨Pat.lit "failed".data, "t5".data, "failed"⟩, ⟨16, "failed".data, []⟩)]
    ∧ (search (Pat.lit "ERROR".data) "CRITICAL ERROR: failed login".data).isSome := by
  have h := C9_check_patterns_all_matches
    [⟨Pat.lit "ERROR".data, "t1".data, "ERROR"⟩,
     ⟨Pat.lit "CRITICAL".data, "t2".data, "CRITICAL"⟩,
     ⟨Pat.lit "FATAL".data, "t3".data, "FATAL"⟩,
     ⟨Pat.lit "exception".data, "t4".data, "exception"⟩,
     ⟨Pat.lit "failed".data, "t5".data, "failed"⟩]
    "CRITICAL ERROR: failed login".data
  exact ⟨h.1.trans (by decide), (h.2.1 (Pat.lit "ERROR".data)).mpr ⟨9, by decide⟩⟩

theorem utf8Encode_cons (c : Char) (s : List Char) :
    utf8Encode (c :: s) = utf8EncodeChar c ++ utf8Encode s := by
  simp [utf8Encode]

theorem utf8Encode_append (a b : List Char) :
    utf8Encode (a ++ b) = utf8Encode a ++ utf8Encode b := by
  simp [utf8Encode]

theorem isCont_iff {b : Nat} : isCont b = true ↔ 0x80 ≤ b ∧ b ≤ 0xBF := by
  simp [isCont]

theorem cont3Ok_iff {b1 b2 : Nat} : cont3Ok b1 b2 = true ↔
    ((b1 = 0xE0 ∧ 0xA0 ≤ b2 ∧ b2 ≤ 0xBF) ∨
     (b1 = 0xED ∧ 0x80 ≤ b2 ∧ b2 ≤ 0x9F) ∨
     (b1 ≠ 0xE0 ∧ b1 ≠ 0xED ∧ 0x80 ≤ b2 ∧ b2 ≤ 0xBF)) := by
  unfold cont3Ok
  split_ifs with h1 h2
  · subst h1; simp
  · subst h2; simp [h1]
  · simp [isCont, h1, h2]

theorem cont4Ok_iff {b1 b2 : Nat} : cont4Ok b1 b2 = true ↔
    ((b1 = 0xF0 ∧ 0x90 ≤ b2 ∧ b2 ≤ 0xBF) ∨
     (b1 = 0xF4 ∧ 0x80 ≤ b2 ∧ b2 ≤ 0x8F) ∨
     (b1 ≠ 0xF0 ∧ b1 ≠ 0xF4 ∧ 0x80 ≤ b2 ∧ b2 ≤ 0xBF)) := by
  unfold cont4Ok
  split_ifs with h1 h2
  · subst h1; simp
  · subst h2; simp [h1]
  · simp [isCont, h1, h2]

theorem utf8EncodeChar_ofNat1 {b1 : Nat} (h : b1 < 0x80) :
    utf8EncodeChar (utf8Char1 b1) = [b1] := by
  have hv : b1.isValidChar := Or.inl (by omega)
  unfold utf8EncodeChar utf8Char1
  rw [toNat_ofNat_valid _ hv]
  simp only [if_pos h]

theorem utf8EncodeChar_ofNat2 {b1 b2 : Nat} (h1 : 0xC2 ≤ b1) (h1' : b1 < 0xE0)
    (h2 : isCont b2 = true) :
    utf8EncodeChar (utf8Char2 b1 b2) = [b1, b2] := by
  unfold utf8Char2
  rw [isCont_iff] at h2
  have hv : ((b1 - 0xC0) * 0x40 + (b2 - 0x80)).isValidChar := Or.inl (by omega)
  unfold utf8EncodeChar
  rw [toNat_ofNat_valid _ hv]
  rw [if_neg (by omega), if_pos (by omega : (b1 - 0xC0) * 0x40 + (b2 - 0x80) < 0x800)]
  have e1 : 0xC0 + ((b1 - 0xC0) * 0x40 + (b2 - 0x80)) / 0x40 = b1 := by omega
  have e2 : 0x80 + ((b1 - 0xC0) * 0x40 + (b2 - 0x80)) % 0x40 = b2 := by omega
  rw [e1, e2]

theorem utf8EncodeChar_ofNat3 {b1 b2 b3 : Nat} (h1 : 0xE0 ≤ b1) (h1' : b1 < 0xF0)
    (h2 : cont3Ok b1 b2 = true) (h3 : isCont b3 = true) :
    utf8EncodeChar (utf8Char3 b1 b2 b3) = [b1, b2, b3] := by
  unfold utf8Char3
  rw [cont3Ok_iff] at h2
  rw [isCont_iff] at h3
  have hv : ((b1 - 0xE0) * 0x1000 + (b2 - 0x80) * 0x40 + (b3 - 0x80)).isValidChar := by
    rcases h2 with ⟨e, hb⟩ | ⟨e, hb⟩ | ⟨e1, e2, hb⟩
    · exact Or.inl (by omega)
    · exact Or.inl (by omega)
    · by_cases hlt : b1 ≤ 0xEC
      · exact Or.inl (by omega)
      · exact Or.inr (by omega)
  unfold utf8EncodeChar
  rw [toNat_ofNat_valid _ hv]
  have hge : 0x800 ≤ (b1 - 0xE0) * 0x1000 + (b2 - 0x80) * 0x40 + (b3 - 0x80) := by
    rcases h2 with ⟨e, hb⟩ | ⟨e, hb⟩ | ⟨e1, e2, hb⟩ <;> omega
  rw [if_neg (by omega), if_neg (by omega),
    if_pos (by
      rcases h2 with ⟨e, hb⟩ | ⟨e, hb⟩ | ⟨e1, e2, hb⟩ <;> omega :
      (b1 - 0xE0) * 0x1000 + (b2 - 0x80) * 0x40 + (b3 - 0x80) < 0x10000)]
  have hb2 : 0x80 ≤ b2 ∧ b2 ≤ 0xBF := by
    rcases h2 with ⟨e, hb⟩ | ⟨e, hb⟩ | ⟨e1, e2, hb⟩ <;> omega
  have e1 : 0xE0 + ((b1 - 0xE0) * 0x1000 + (b2 - 0x80) * 0x40 + (b3 - 0x80)) / 0x1000 = b1 := by
    omega
  have e2 : 0x80 + ((b1 - 0xE0) * 0x1000 + (b2 - 0x80) * 0x40 + (b3 - 0x80)) / 0x40 % 0x40 = b2 := by
    omega
  have e3 : 0x80 + ((b1 - 0xE0) * 0x1000 + (b2 - 0x80) * 0x40 + (b3 - 0x80)) % 0x40 = b3 := by
    omega
  rw [e1, e2, e3]

theorem utf8EncodeChar_ofNat4 {b1 b2 b3 b4 : Nat} (h1 : 0xF0 ≤ b1) (h1' : b1 < 0xF5)
    (h2 : cont4Ok b1 b2 = true) (h3 : isCont b3 = true) (h4 : isCont b4 = true) :
    utf8EncodeChar (utf8Char4 b1 b2 b3 b4) = [b1, b2, b3, b4] := by
  unfold utf8Char4
  rw [cont4Ok_iff] at h2
  rw [isCont_iff] at h3
  rw [isCont_iff] at h4
  have hb2 : 0x80 ≤ b2 ∧ b2 ≤ 0xBF := by
    rcases h2 with ⟨e, hb⟩ | ⟨e, hb⟩ | ⟨e1, e2, hb⟩ <;> omega
  have hge : 0x10000 ≤ (b1 - 0xF0) * 0x40000 + (b2 - 0x80) * 0x1000 +
      (b3 - 0x80) * 0x40 + (b4 - 0x80) := by
    rcases h2 with ⟨e, hb⟩ | ⟨e, hb⟩ | ⟨e1, e2, hb⟩ <;> omega
  have hlt : (b1 - 0xF0) * 0x40000 + (b2 - 0x80) * 0x1000 +
      (b3 - 0x80) * 0x40 + (b4 - 0x80) < 0x110000 := by
    rcases h2 with ⟨e, hb⟩ | ⟨e, hb⟩ | ⟨e1, e2, hb⟩ <;> omega
  have hv : ((b1 - 0xF0) * 0x40000 + (b2 - 0x80) * 0x1000 +
      (b3 - 0x80) * 0x40 + (b4 - 0x80)).isValidChar := Or.inr (by omega)
  unfold utf8EncodeChar
  rw [toNat_ofNat_valid _ hv]
  rw [if_neg (by omega), if_neg (by omega), if_neg (by omega)]
  have e1 : 0xF0 + ((b1 - 0xF0) * 0x40000 + (b2 - 0x80) * 0x1000 +
      (b3 - 0x80) * 0x40 + (b4 - 0x80)) / 0x40000 = b1 := by omega
  have e2 : 0x80 + ((b1 - 0xF0) * 0x40000 + (b2 - 0x80) * 0x1000 +
      (b3 - 0x80) * 0x40 + (b4 - 0x80)) / 0x1000 % 0x40 = b2 := by omega
  have e3 : 0x80 + ((b1 - 0xF0) * 0x40000 + (b2 - 0x80) * 0x1000 +
      (b3 - 0x80) * 0x40 + (b4 - 0x80)) / 0x40 % 0x40 = b3 := by omega
  have e4 : 0x80 + ((b1 - 0xF0) * 0x40000 + (b2 - 0x80) * 0x1000 +
      (b3 - 0x80) * 0x40 + (b4 - 0x80)) % 0x40 = b4 := by omega
  rw [e1, e2, e3, e4]

theorem utf8Decode_cons_ascii {b1 : Nat} (hb : b1 < 0x80) (t : List Nat) :
    utf8Decode (b1 :: t) = (utf8Decode t).map (fun cs => utf8Char1 b1 :: cs) := by
  match t with
  | [] => conv => lhs; rw [utf8Decode]
          rw [if_pos hb]
  | [b2] => conv => lhs; rw [utf8Decode]
            rw [if_pos hb]
  | [b2, b3] => conv => lhs; rw [utf8Decode]
                rw [if_pos hb]
  | b2 :: b3 :: b4 :: r => conv => lhs; rw [utf8Decode]
                           rw [if_pos hb]

theorem utf8Decode_single_bad {b1 : Nat} (hb : ¬ b1 < 0x80) :
    utf8Decode [b1] = none := by
  rw [utf8Decode, if_neg hb]

theorem utf8Decode_cons_badLead {b1 : Nat} (hb : ¬ b1 < 0x80) (hb' : b1 < 0xC2)
    (t : List Nat) : utf8Decode (b1 :: t) = none := by
  match t with
  | [] => rw [utf8Decode, if_neg hb]
  | [b2] => rw [utf8Decode, if_neg hb, if_pos hb']
  | [b2, b3] => rw [utf8Decode, if_neg hb, if_pos hb']
  | b2 :: b3 :: b4 :: r => rw [utf8Decode, if_neg hb, if_pos hb']

theorem utf8Decode_cons2 {b1 b2 : Nat} (h1 : ¬ b1 < 0xC2) (h2 : b1 < 0xE0)
    (hc : isCont b2 = true) (t : List Nat) :
    utf8Decode (b1 :: b2 :: t) =
      (utf8Decode t).map (fun cs => utf8Char2 b1 b2 :: cs) := by
  have h0 : ¬ b1 < 0x80 := by omega
  match t with
  | [] => conv => lhs; rw [utf8Decode]
          rw [if_neg h0, if_neg h1, if_pos h2, if_pos hc]
  | [b3] => conv => lhs; rw [utf8Decode]
            rw [if_neg h0, if_neg h1, if_pos h2, if_pos hc]
  | b3 :: b4 :: r => conv => lhs; rw [utf8Decode]
                     rw [if_neg h0, if_neg h1, if_pos h2, if_pos hc]

theorem utf8Decode_cons2_bad {b1 b2 : Nat} (h1 : ¬ b1 < 0xC2) (h2 : b1 < 0xE0)
    (hc : ¬ isCont b2 = true) (t : List Nat) :
    utf8Decode (b1 :: b2 :: t) = none := by
  have h0 : ¬ b1 < 0x80 := by omega
  match t with
  | [] => rw [utf8Decode, if_neg h0, if_neg h1, if_pos h2, if_neg hc]
  | [b3] => rw [utf8Decode, if_neg h0, if_neg h1, if_pos h2, if_neg hc]
  | b3 :: b4 :: r => rw [utf8Decode, if_neg h0, if_neg h1, if_pos h2, if_neg hc]

theorem utf8Decode_pair_bad {b1 b2 : Nat} (h2 : ¬ b1 < 0xE0) :
    utf8Decode [b1, b2] = none := by
  have h0 : ¬ b1 < 0x80 := by omega
  have h1 : ¬ b1 < 0xC2 := by omega
  rw [utf8Decode, if_neg h0, if_neg h1, if_neg h2]

theorem utf8Decode_cons3 {b1 b2 b3 : Nat} (h2 : ¬ b1 < 0xE0) (h3 : b1 < 0xF0)
    (hc : (cont3Ok b1 b2 && isCont b3) = true) (t : List Nat) :
    utf8Decode (b1 :: b2 :: b3 :: t) =
      (utf8Decode t).map (fun cs => utf8Char3 b1 b2 b3 :: cs) := by
  have h0 : ¬ b1 < 0x80 := by omega
  have h1 : ¬ b1 < 0xC2 := by omega
  match t with
  | [] => conv => lhs; rw [utf8Decode]
          rw [if_neg h0, if_neg h1, if_neg h2, if_pos h3, if_pos hc]
  | b4 :: r => conv => lhs; rw [utf8Decode]
               rw [if_neg h0, if_neg h1, if_neg h2, if_pos h3, if_pos hc]

theorem utf8Decode_cons3_bad {b1 b2 b3 : Nat} (h2 : ¬ b1 < 0xE0) (h3 : b1 < 0xF0)
    (hc : ¬ (cont3Ok b1 b2 && isCont b3) = true) (t : List Nat) :
    utf8Decode (b1 :: b2 :: b3 :: t) = none := by
  have h0 : ¬ b1 < 0x80 := by omega
  have h1 : ¬ b1 < 0xC2 := by omega
  match t with
  | [] => rw [utf8Decode, if_neg h0, if_neg h1, if_neg h2, if_pos h3, if_neg hc]
  | b4 :: r => rw [utf8Decode, if_neg h0, if_neg h1, if_neg h2, if_pos h3, if_neg hc]

theorem utf8Decode_triple_bad {b1 b2 b3 : Nat} (h3 : ¬ b1 < 0xF0) :
    utf8Decode [b1, b2, b3] = none := by
  have h0 : ¬ b1 < 0x80 := by omega
  have h1 : ¬ b1 < 0xC2 := by omega
  have h2 : ¬ b1 < 0xE0 := by omega
  rw [utf8Decode, if_neg h0, if_neg h1, if_neg h2, if_neg h3]

theorem utf8Decode_cons4 {b1 b2 b3 b4 : Nat} (h3 : ¬ b1 < 0xF0) (h4 : b1 < 0xF5)
    (hc : (cont4Ok b1 b2 && isCont b3 && isCont b4) = true) (t : List Nat) :
    utf8Decode (b1 :: b2 :: b3 :: b4 :: t) =
      (utf8Decode t).map (fun cs => utf8Char4 b1 b2 b3 b4 :: cs) := by
  have h0 : ¬ b1 < 0x80 := by omega
  have h1 : ¬ b1 < 0xC2 := by omega
  have h2 : ¬ b1 < 0xE0 := by omega
  conv => lhs; rw [utf8Decode]
  rw [if_neg h0, if_neg h1, if_neg h2, if_neg h3, if_pos h4, if_pos hc]

theorem utf8Decode_cons4_bad {b1 b2 b3 b4 : Nat} (h3 : ¬ b1 < 0xF0) (h4 : b1 < 0xF5)
    (hc : ¬ (cont4Ok b1 b2 && isCont b3 && isCont b4) = true) (t : List Nat) :
    utf8Decode (b1 :: b2 :: b3 :: b4 :: t) = none := by
  have h0 : ¬ b1 < 0x80 := by omega
  have h1 : ¬ b1 < 0xC2 := by omega
  have h2 : ¬ b1 < 0xE0 := by omega
  rw [utf8Decode, if_neg h0, if_neg h1, if_neg h2, if_neg h3, if_pos h4, if_neg hc]

theorem utf8Decode_cons_huge {b1 : Nat} (h4 : ¬ b1 < 0xF5) (t : List Nat) :
    utf8Decode (b1 :: t) = none := by
  have h0 : ¬ b1 < 0x80 := by omega
  have h1 : ¬ b1 < 0xC2 := by omega
  have h2 : ¬ b1 < 0xE0 := by omega
  have h3 : ¬ b1 < 0xF0 := by omega
  match t with
  | [] => rw [utf8Decode, if_neg h0]
  | [b2] => rw [utf8Decode, if_neg h0, if_neg h1, if_neg h2]
  | [b2, b3] => rw [utf8Decode, if_neg h0, if_neg h1, if_neg h2, if_neg h3]
  | b2 :: b3 :: b4 :: r =>
    rw [utf8Decode, if_neg h0, if_neg h1, if_neg h2, if_neg h3, if_neg h4]

/-- Strict decoding inverts encoding: whatever `bytes.decode('utf-8')`
accepts re-encodes to exactly the original bytes, so offsets computed from
re-encoded decoded text are byte-accurate. -/
theorem utf8Encode_utf8Decode : ∀ {bs : List Nat} {cs : List Char},
    utf8Decode bs = some cs → utf8Encode cs = bs := by
  have main : ∀ (n : Nat) (bs : List Nat) (cs : List Char), bs.length ≤ n →
      utf8Decode bs = some cs → utf8Encode cs = bs := by
    intro n
    induction n with
    | zero =>
      intro bs cs hlen h
      match bs with
      | [] =>
        rw [utf8Decode] at h
        cases h
        rfl
    | succ n ih =>
      intro bs cs hlen h
      match bs with
      | [] =>
        rw [utf8Decode] at h
        cases h
        rfl
      | b1 :: t =>
        simp only [List.length_cons, Nat.succ_le_succ_iff] at hlen
        by_cases hb : b1 < 0x80
        · rw [utf8Decode_cons_ascii hb, Option.map_eq_some'] at h
          obtain ⟨a, ha, rfl⟩ := h
          rw [utf8Encode_cons, ih t a hlen ha, utf8EncodeChar_ofNat1 hb]
          rfl
        · by_cases hb1 : b1 < 0xC2
          · rw [utf8Decode_cons_badLead hb hb1] at h
            cases h
          · by_cases hb2 : b1 < 0xE0
            · match t with
              | [] =>
                rw [utf8Decode_single_bad hb] at h
                cases h
              | b2 :: t2 =>
                by_cases hc : isCont b2 = true
                · rw [utf8Decode_cons2 hb1 hb2 hc, Option.map_eq_some'] at h
                  obtain ⟨a, ha, rfl⟩ := h
                  rw [utf8Encode_cons,
                    ih t2 a (by simp at hlen; omega) ha,
                    utf8EncodeChar_ofNat2 (by omega) hb2 hc]
                  rfl
                · rw [utf8Decode_cons2_bad hb1 hb2 hc] at h
                  cases h
            · by_cases hb3 : b1 < 0xF0
              · match t with
                | [] =>
                  rw [utf8Decode_single_bad hb] at h
                  cases h
                | [b2] =>
                  rw [utf8Decode_pair_bad hb2] at h
                  cases h
                | b2 :: b3 :: t3 =>
                  by_cases hc : (cont3Ok b1 b2 && isCont b3) = true
                  · rw [utf8Decode_cons3 hb2 hb3 hc, Option.map_eq_some'] at h
                    obtain ⟨a, ha, rfl⟩ := h
                    rw [Bool.and_eq_true] at hc
                    rw [utf8Encode_cons,
                      ih t3 a (by simp at hlen; omega) ha,
                      utf8EncodeChar_ofNat3 (by omega) hb3 hc.1 hc.2]
                    rfl
                  · rw [utf8Decode_cons3_bad hb2 hb3 hc] at h
                    cases h
              · by_cases hb4 : b1 < 0xF5
                · match t with
                  | [] =>
                    rw [utf8Decode_single_bad hb] at h
                    cases h
                  | [b2] =>
                    rw [utf8Decode_pair_bad hb2] at h
                    cases h
                  | [b2, b3] =>
                    rw [utf8Decode_triple_bad hb3] at h
                    cases h
                  | b2 :: b3 :: b4 :: t4 =>
                    by_cases hc : (cont4Ok b1 b2 && isCont b3 && isCont b4) = true
                    · rw [utf8Decode_cons4 hb3 hb4 hc, Option.map_eq_some'] at h
                      obtain ⟨a, ha, rfl⟩ := h
                      rw [Bool.and_eq_true, Bool.and_eq_true] at hc
                      rw [utf8Encode_cons,
                        ih t4 a (by simp at hlen; omega) ha,
                        utf8EncodeChar_ofNat4 (by omega) hb4 hc.1.1 hc.1.2 hc.2]
                      rfl
                    · rw [utf8Decode_cons4_bad hb3 hb4 hc] at h
                      cases h
                · rw [utf8Decode_cons_huge hb4] at h
                  cases h
  intro bs cs h
  exact main bs.length bs cs le_rfl h

theorem splitOnNl_ne_nil (s : List Char) : splitOnNl s ≠ [] := by
  match s with
  | [] => simp [splitOnNl]
  | c :: t =>
    rw [splitOnNl]
    split
    · simp
    · cases h : splitOnNl t <;> simp

theorem joinNl_cons_cons (x y : List Char) (t : List (List Char)) :
    joinNl (x :: y :: t) = x ++ '\n' :: joinNl (y :: t) := rfl

theorem joinNl_splitOnNl (s : List Char) : joinNl (splitOnNl s) = s := by
  induction s with
  | nil => rfl
  | cons c t ih =>
    rw [splitOnNl]
    by_cases hc : c = '\n'
    · rw [if_pos hc]
      obtain ⟨h, t', ht⟩ : ∃ h t', splitOnNl t = h :: t' := by
        cases hs : splitOnNl t with
        | nil => exact absurd hs (splitOnNl_ne_nil t)
        | cons h t' => exact ⟨h, t', rfl⟩
      rw [ht]
      rw [ht] at ih
      rw [joinNl_cons_cons]
      simp [ih, hc]
    · rw [if_neg hc]
      cases hs : splitOnNl t with
      | nil => exact absurd hs (splitOnNl_ne_nil t)
      | cons h t' =>
        rw [hs] at ih
        cases t' with
        | nil =>
          simp only [joinNl] at ih ⊢
          rw [ih]
        | cons h2 t2 =>
          rw [joinNl_cons_cons] at ih ⊢
          simp only [List.cons_append, ih]

theorem splitOnNl_getLast_ne_nil {s : List Char} (hne : s ≠ [])
    (hnl : s.getLast? ≠ some '\n') :
    (splitOnNl s).getLast? ≠ some [] := by
  induction s with
  | nil => exact absurd rfl hne
  | cons c t ih =>
    rw [splitOnNl]
    by_cases hc : c = '\n'
    · rw [if_pos hc]
      cases t with
      | nil => subst hc; simp at hnl
      | cons d u =>
        have ht : (d :: u).getLast? ≠ some '\n' := by
          rwa [List.getLast?_cons_cons] at hnl
        have hrec := ih (by simp) ht
        obtain ⟨h, t', hs⟩ : ∃ h t', splitOnNl (d :: u) = h :: t' := by
          cases hs : splitOnNl (d :: u) with
          | nil => exact absurd hs (splitOnNl_ne_nil (d :: u))
          | cons h t' => exact ⟨h, t', rfl⟩
        rw [hs] at hrec
        rw [hs, List.getLast?_cons_cons]
        exact hrec
    · rw [if_neg hc]
      cases hs : splitOnNl t with
      | nil => exact absurd hs (splitOnNl_ne_nil t)
      | cons h t' =>
        cases t' with
        | nil => simp
        | cons h2 t2 =>
          rw [List.getLast?_cons_cons]
          cases t with
          | nil => simp [splitOnNl] at hs
          | cons d u =>
            have ht : (d :: u).getLast? ≠ some '\n' := by
              rwa [List.getLast?_cons_cons] at hnl
            have hrec := ih (by simp) ht
            rw [hs, List.getLast?_cons_cons] at hrec
            exact hrec

theorem joinNl_append_singleton (init : List (List Char)) (last : List Char)
    (h : init ≠ []) :
    joinNl (init ++ [last]) = joinNl init ++ '\n' :: last := by
  induction init with
  | nil => exact absurd rfl h
  | cons x t ih =>
    cases t with
    | nil => simp [joinNl]
    | cons y u =>
      rw [List.cons_append, List.cons_append, joinNl_cons_cons,
        ← List.cons_append, ih (by simp), joinNl_cons_cons]
      simp

theorem utf8Encode_nl : utf8Encode ['\n'] = [10] := rfl

theorem utf8EncodeChar_length_pos (c : Char) : 0 < (utf8EncodeChar c).length := by
  unfold utf8EncodeChar
  dsimp only
  split_ifs <;> simp

theorem utf8Encode_length_pos {l : List Char} (h : l ≠ []) :
    0 < (utf8Encode l).length := by
  match l with
  | c :: t =>
    rw [utf8Encode_cons]
    simp only [List.length_append]
    have := utf8EncodeChar_length_pos c
    omega

theorem utf8Encode_joinNl_length (ls : List (List Char)) (h : ls ≠ []) :
    (utf8Encode (joinNl ls ++ ['\n'])).length =
      (ls.map (fun l => (utf8Encode l).length + 1)).sum := by
  induction ls with
  | nil => exact absurd rfl h
  | cons x t ih =>
    cases t with
    | nil => simp [joinNl, utf8Encode_append, utf8Encode_nl]
    | cons y u =>
      rw [joinNl_cons_cons, List.append_assoc, utf8Encode_append]
      rw [show ('\n' :: joinNl (y :: u)) ++ ['\n'] = ['\n'] ++ (joinNl (y :: u) ++ ['\n'])
        from rfl]
      rw [utf8Encode_append]
      simp only [List.length_append, utf8Encode_nl, List.length_singleton]
      rw [ih (by simp)]
      simp only [List.map_cons, List.sum_cons]
      omega

/-- Claim C2: when the unread chunk decodes but does not end in the line
separator, `read_new_content` emits exactly the complete lines — every
part of the split but the trailing partial one, which is withheld for the
next cycle — and advances the offset by exactly the total UTF-8 byte
length of the emitted lines, one separator byte each included, which is
strictly less than the full chunk length.  This covers the chunk with no
separator at all (a pure partial write): the split has a single part, no
line is emitted, and the offset advances by the empty sum, i.e. stays
put. -/
theorem C2_partial_line_buffering (c : List Nat) (st : MonitorState)
    (cs : List Char) (hle : ¬ c.length ≤ st.position)
    (hdec : utf8Decode (chunkOf c st.position) = some cs)
    (hnl : cs.getLast? ≠ some '\n') :
    read_new_content (some c) st =
      ((splitOnNl cs).dropLast,
       { position := st.position +
           (((splitOnNl cs).dropLast).map (fun l => (utf8Encode l).length + 1)).sum,
         lastSize := c.length })
    ∧ (((splitOnNl cs).dropLast).map (fun l => (utf8Encode l).length + 1)).sum
        < (chunkOf c st.position).length := by
  by_cases hmany : 1 < (splitOnNl cs).length
  case neg =>
    have hone : (splitOnNl cs).length = 1 := by
      have h0 : 0 < (splitOnNl cs).length :=
        List.length_pos.mpr (splitOnNl_ne_nil cs)
      omega
    have hdrop : (splitOnNl cs).dropLast = [] := by
      cases hsp : splitOnNl cs with
      | nil => exact absurd hsp (splitOnNl_ne_nil cs)
      | cons a t =>
        rw [hsp] at hone
        rw [List.length_cons] at hone
        have ht : t = [] := List.eq_nil_of_length_eq_zero (by omega)
        subst ht
        rfl
    have hchunklen : 0 < (chunkOf c st.position).length := by
      unfold chunkOf
      rw [List.length_take, List.length_drop]
      omega
    have hchunk : splitChunk cs st.position (chunkOf c st.position).length =
        ([], st.position) := by
      unfold splitChunk
      rw [if_neg hnl]
      dsimp only
      rw [if_neg hmany]
    constructor
    · rw [read_eq_of_decode_some hle hdec, hchunk, hdrop]
      simp
    · rw [hdrop]
      simpa using hchunklen
  have hinit : (splitOnNl cs).dropLast ≠ [] := by
    have hl : (splitOnNl cs).dropLast.length = (splitOnNl cs).length - 1 :=
      List.length_dropLast _
    intro hcon
    rw [hcon] at hl
    simp at hl
    omega
  have hchunk : splitChunk cs st.position (chunkOf c st.position).length =
      ((splitOnNl cs).dropLast,
       st.position +
         (utf8Encode (joinNl (splitOnNl cs).dropLast ++ ['\n'])).length) := by
    unfold splitChunk
    rw [if_neg hnl]
    dsimp only
    rw [if_pos hmany]
  have hsum := utf8Encode_joinNl_length (splitOnNl cs).dropLast hinit
  have hcs : cs ≠ [] := by
    intro hcon
    rw [hcon] at hmany
    simp [splitOnNl] at hmany
  have hne : splitOnNl cs ≠ [] := splitOnNl_ne_nil cs
  have hlast : (splitOnNl cs).getLast hne ≠ [] := by
    intro hcon
    have hq := splitOnNl_getLast_ne_nil hcs hnl
    rw [List.getLast?_eq_getLast _ hne, hcon] at hq
    exact hq rfl
  have hdecomp : (splitOnNl cs).dropLast ++ [(splitOnNl cs).getLast hne] =
      splitOnNl cs := List.dropLast_append_getLast hne
  have hjoin : cs = joinNl ((splitOnNl cs).dropLast) ++
      '\n' :: (splitOnNl cs).getLast hne := by
    have h2 : joinNl (splitOnNl cs) =
        joinNl ((splitOnNl cs).dropLast ++ [(splitOnNl cs).getLast hne]) :=
      congrArg joinNl hdecomp.symm
    rw [joinNl_append_singleton _ _ hinit] at h2
    exact (joinNl_splitOnNl cs).symm.trans h2
  have hlen : (chunkOf c st.position).length =
      (utf8Encode (joinNl (splitOnNl cs).dropLast)).length + 1 +
        (utf8Encode ((splitOnNl cs).getLast hne)).length := by
    rw [← utf8Encode_utf8Decode hdec]
    conv => lhs; rw [hjoin]
    rw [show ('\n' :: (splitOnNl cs).getLast hne) =
      ['\n'] ++ (splitOnNl cs).getLast hne from rfl]
    rw [utf8Encode_append, utf8Encode_append]
    simp [utf8Encode_nl]
    omega
  have hadv : (utf8Encode (joinNl (splitOnNl cs).dropLast ++ ['\n'])).length =
      (utf8Encode (joinNl (splitOnNl cs).dropLast)).length + 1 := by
    rw [utf8Encode_append]
    simp [utf8Encode_nl]
  constructor
  · rw [read_eq_of_decode_some hle hdec, hchunk]
    simp [hsum]
  · rw [← hsum, hadv, hlen]
    have := utf8Encode_length_pos hlast
    omega

/-- Witness for C2 at the spec's concrete scenario: the file holds
`"A\nB"` (no trailing separator) — only `["A"]` comes back and the offset
advances to 2, not 3; after the file grows to `"A\nB tail\nC\n"` the next
call returns `["B tail", "C"]` and the offset reaches 11; and a chunk with
no separator at all (`"B"`) emits nothing, the offset staying put. -/
theorem C2_partial_line_buffering_witness :
    (¬ ([0x41, 0x0A, 0x42] : List Nat).length ≤ (0 : Nat))
    ∧ read_new_content (some [0x41, 0x0A, 0x42]) ⟨0, 0⟩ = ([[ 'A' ]], ⟨2, 3⟩)
    ∧ read_new_content
        (some [0x41, 0x0A, 0x42, 0x20, 0x74, 0x61, 0x69, 0x6C, 0x0A, 0x43, 0x0A])
        ⟨2, 3⟩ = ([[ 'B', ' ', 't', 'a', 'i', 'l' ], [ 'C' ]], ⟨11, 11⟩)
    ∧ read_new_content (some [0x42]) ⟨0, 0⟩ = ([], ⟨0, 1⟩) := by
  refine ⟨by decide, ?_, by decide, ?_⟩
  · have h := C2_partial_line_buffering [0x41, 0x0A, 0x42] ⟨0, 0⟩ [ 'A', '\n', 'B' ]
      (by decide) (by decide) (by decide)
    rw [h.1]
    decide
  · have h := C2_partial_line_buffering [0x42] ⟨0, 0⟩ [ 'B' ]
      (by decide) (by decide) (by decide)
    rw [h.1]
    decide

theorem chunkOf_congr {c c' : List Nat} {p n : Nat} (hlen : c.length = c'.length)
    (hdrop : c.drop n = c'.drop n) (hp : n ≤ p) : chunkOf c p = chunkOf c' p := by
  have hdp : c.drop p = c'.drop p := by
    calc c.drop p = (c.drop n).drop (p - n) := by
          rw [List.drop_drop, show n + (p - n) = p from by omega]
      _ = (c'.drop n).drop (p - n) := by rw [hdrop]
      _ = c'.drop p := by rw [List.drop_drop, show n + (p - n) = p from by omega]
  unfold chunkOf
  rw [hlen, hdp]

theorem read_congr {c c' : List Nat} {n : Nat} (st : MonitorState)
    (hlen : c.length = c'.length) (hdrop : c.drop n = c'.drop n)
    (hp : n ≤ st.position) :
    read_new_content (some c) st = read_new_content (some c') st := by
  have hch : chunkOf c st.position = chunkOf c' st.position :=
    chunkOf_congr hlen hdrop hp
  by_cases hle : c.length ≤ st.position
  · rw [read_eq_of_le hle, read_eq_of_le (hlen ▸ hle)]
  · have hle' : ¬ c'.length ≤ st.position := by rw [← hlen]; exact hle
    cases hdec : utf8Decode (chunkOf c st.position) with
    | none =>
      rw [read_eq_of_decode_none hdec,
        read_eq_of_decode_none (by rw [← hch]; exact hdec)]
    | some cs =>
      rw [read_eq_of_decode_some hle hdec,
        read_eq_of_decode_some hle' (by rw [← hch]; exact hdec)]
      rw [hch, hlen]

theorem runReads_congr {n : Nat} {cs cs' : List (List Nat)}
    (hf : List.Forall₂ (fun c c' => c.length = c'.length ∧ c.drop n = c'.drop n)
      cs cs') :
    ∀ st : MonitorState, n ≤ st.position → runReads st cs = runReads st cs' := by
  induction hf with
  | nil => intro st hp; rfl
  | cons h hf ih =>
    intro st hp
    rw [runReads, runReads]
    rw [read_congr st h.1 h.2 hp]
    rw [ih _ (le_trans hp (read_position_mono _ _))]

/-- Claim C8: a file registered while it exists starts tracking at its
current size, and everything any later sequence of `read_new_content` calls
returns is insensitive to the bytes that were present at registration time:
replacing those first `c₀.length` bytes by anything of the same length in
every later snapshot leaves every emitted line sequence (and the tracking
state) unchanged, so registered-time content is never re-scanned or
returned. -/
theorem C8_no_replay (c₀ : List Nat) (cs cs' : List (List Nat))
    (hf : List.Forall₂
      (fun c c' => c.length = c'.length ∧ c.drop c₀.length = c'.drop c₀.length)
      cs cs') :
    (register_file (some c₀)).position = c₀.length ∧
    runReads (register_file (some c₀)) cs = runReads (register_file (some c₀)) cs' :=
  ⟨rfl, runReads_congr hf _ le_rfl⟩

/-- Witness for C8: register on `"OLD\n"`, then append `"NEW\n"` — reads
are identical when the pre-existing four bytes are replaced by zeros, and
they return only `["NEW"]`. -/
theorem C8_no_replay_witness :
    runReads (register_file (some [0x4F, 0x4C, 0x44, 0x0A]))
        [[0x4F, 0x4C, 0x44, 0x0A, 0x4E, 0x45, 0x57, 0x0A]] =
      runReads (register_file (some [0x4F, 0x4C, 0x44, 0x0A]))
        [[0, 0, 0, 0, 0x4E, 0x45, 0x57, 0x0A]]
    ∧ runReads (register_file (some [0x4F, 0x4C, 0x44, 0x0A]))
        [[0x4F, 0x4C, 0x44, 0x0A, 0x4E, 0x45, 0x57, 0x0A]] =
      ([[[ 'N', 'E', 'W' ]]], ⟨8, 8⟩) := by
  refine ⟨(C8_no_replay [0x4F, 0x4C, 0x44, 0x0A]
    [[0x4F, 0x4C, 0x44, 0x0A, 0x4E, 0x45, 0x57, 0x0A]]
    [[0, 0, 0, 0, 0x4E, 0x45, 0x57, 0x0A]]
    (List.Forall₂.cons ⟨by decide, by decide⟩ List.Forall₂.nil)).2, by decide⟩

/-- Counterexample to claim C4 as stated: reading a chunk that contains the
undecodable byte `0xFF` yields NO lines at all — not the lossily
substituted complete line the claim requires — because the strict decode
raises and the per-file handler returns an empty result, offset unchanged.
-/
theorem C4_counterexample :
    read_new_content_attempt [0x41, 0xFF, 0x0A] ⟨0, 0⟩ = .error .unicodeDecodeError
    ∧ read_new_content (some [0x41, 0xFF, 0x0A]) ⟨0, 0⟩ = ([], ⟨0, 0⟩) :=
  ⟨by decide, by decide⟩

/-- Claim C4 amended: `read_new_content` decodes strictly, not lossily; a
malformed chunk makes the `try` body raise `UnicodeDecodeError`, and the
`except` handler logs it and returns no lines for that cycle with the
offset unchanged (so the same bytes fail again on every later cycle) —
the cycle is aborted for that file while the monitor continues. -/
theorem C4_strict_decode_returns_empty (c : List Nat) (st : MonitorState)
    (h : utf8Decode (chunkOf c st.position) = none) :
    read_new_content_attempt c st = .error .unicodeDecodeError
    ∧ read_new_content (some c) st = ([], st) := by
  have hle : ¬ c.length ≤ st.position := by
    intro hle
    rw [chunkOf_nil_of_le hle] at h
    rw [utf8Decode] at h
    cases h
  refine ⟨?_, read_eq_of_decode_none h⟩
  simp [read_new_content_attempt, hle, h]

/-- Witness for C4's amended claim at the concrete malformed input. -/
theorem C4_strict_decode_returns_empty_witness :
    utf8Decode (chunkOf [0x41, 0xFF, 0x0A] 0) = none
    ∧ read_new_content (some [0x41, 0xFF, 0x0A]) ⟨0, 0⟩ = ([], ⟨0, 0⟩) :=
  ⟨by decide,
   (C4_strict_decode_returns_empty [0x41, 0xFF, 0x0A] ⟨0, 0⟩ (by decide)).2⟩

theorem utf8Decode_replicate_ascii (n : Nat) (l : List Nat) :
    utf8Decode (List.replicate n 0x61 ++ l) =
      (utf8Decode l).map (fun cs => List.replicate n 'a' ++ cs) := by
  induction n with
  | zero =>
    simp only [List.replicate_zero, List.nil_append]
    cases hl : utf8Decode l <;> simp [hl]
  | succ n ih =>
    rw [List.replicate_succ, List.cons_append,
      utf8Decode_cons_ascii (by omega), ih, Option.map_map]
    exact congrArg (fun f => Option.map f (utf8Decode l)) (funext fun cs => rfl)

theorem stallContent_chunk :
    chunkOf stallContent 0 =
      List.replicate (1024 * 1024 - 2) 0x61 ++ [0x0A, 0xF0] := by
  unfold chunkOf stallContent
  rw [List.drop_zero]
  rw [List.length_append, List.length_replicate,
    show ([0x0A, 0xF0, 0x9F, 0x98, 0x80, 0x0A] : List Nat).length = 6 from rfl]
  rw [show (1024 * 1024 - 2 + 6 - 0 : Nat) = 1024 * 1024 + 4 from rfl]
  rw [Nat.min_eq_right (by omega)]
  rw [List.take_append_eq_append_take]
  have h1 : (List.replicate (1024 * 1024 - 2) (0x61 : Nat)).length ≤ 1024 * 1024 := by
    rw [List.length_replicate]
    omega
  rw [List.take_of_length_le h1, List.length_replicate]
  rw [show (1024 * 1024 - (1024 * 1024 - 2) : Nat) = 2 from rfl]
  rfl

theorem stall_decode : utf8Decode (chunkOf stallContent 0) = none := by
  rw [stallContent_chunk, utf8Decode_replicate_ascii]
  rw [show utf8Decode [0x0A, 0xF0] = none from by decide]
  rfl

/-- Counterexample to claim C5 as stated: `stallContent` is built from
valid UTF-8 appends (a line of `'a'`s, then an emoji line), yet because the
1 MiB cap bisects the 4-byte character U+1F600, `read_new_content` returns
no lines AND leaves the state exactly as it was — the call is a fixed
point, so the bisected character is never emitted by any number of repeated
calls, instead of eventually appearing exactly once. -/
theorem C5_counterexample :
    utf8Decode (chunkOf stallContent 0) = none
    ∧ read_new_content (some stallContent) ⟨0, 0⟩ = ([], ⟨0, 0⟩) :=
  ⟨stall_decode, read_eq_of_decode_none stall_decode⟩

/-- Claim C5 amended: when the capped chunk fails the strict decode — in
particular whenever the 1 MiB cap bisects a multi-byte character — every
repeated `read_new_content` call returns no lines and leaves the tracking
state unchanged, so the bisected character (and everything after it) is
never emitted; only when the bisection is at the end of the available bytes
(writer mid-append, unread range under the cap) does the character come out
intact exactly once after the remaining bytes arrive. -/
theorem C5_cap_bisection_stalls (c : List Nat) (st : MonitorState)
    (h : utf8Decode (chunkOf c st.position) = none) :
    ∀ n : Nat, iterState (some c) st n = st ∧ iterLines (some c) st n = [] := by
  intro n
  induction n with
  | zero =>
    refine ⟨rfl, ?_⟩
    unfold iterLines
    rw [show iterState (some c) st 0 = st from rfl]
    rw [read_eq_of_decode_none h]
  | succ n ih =>
    have hstep : iterState (some c) st (n + 1) = st := by
      rw [iterState, ih.1, read_eq_of_decode_none h]
    refine ⟨hstep, ?_⟩
    unfold iterLines
    rw [hstep, read_eq_of_decode_none h]

/-- Witness for C5's amended claim: three cycles on the stalled file emit
nothing and do not move; the mid-append bisection of `'é'` recovers — the
character appears exactly once when its second byte arrives. -/
theorem C5_cap_bisection_stalls_witness :
    utf8Decode (chunkOf stallContent 0) = none
    ∧ iterState (some stallContent) ⟨0, 0⟩ 3 = ⟨0, 0⟩
    ∧ iterLines (some stallContent) ⟨0, 0⟩ 3 = []
    ∧ read_new_content (some [0xC3]) ⟨0, 0⟩ = ([], ⟨0, 0⟩)
    ∧ read_new_content (some [0xC3, 0xA9, 0x0A]) ⟨0, 0⟩ = ([[ 'é' ]], ⟨3, 3⟩) := by
  have h := C5_cap_bisection_stalls stallContent ⟨0, 0⟩ stall_decode 3
  exact ⟨stall_decode, h.1, h.2, by decide, by decide⟩

/-- Counterexample to claim C1 as stated: with template `"Error {code}"`
and a match carrying no `code` group, the formatter raises
`KeyError('code')` — no generic "pattern matched" fallback is produced —
and the same error aborts the whole per-file loop body for a file whose
new line `"ERROR\n"` matches the rule. -/
theorem C1_counterexample :
    alert_run [("API_KEY", "k"), ("API_URL", "u")] (some 200) "app.log".data 1
      "ERROR 42".data "Error {code}".data [] = .error "code"
    ∧ process_file [("API_KEY", "k"), ("API_URL", "u")] (some 200)
        [⟨Pat.lit "ERROR".data, "Error {code}".data, "ERROR"⟩] "app.log".data
        (some [0x45, 0x52, 0x52, 0x4F, 0x52, 0x0A]) ⟨0, 0⟩ = .error "code" :=
  ⟨by decide, by decide⟩

/-- Claim C1 amended: a template referencing a variable absent from the
mapping makes `str.format` raise `KeyError`; `alert` has no handler and
emits no fallback message, so the error escapes `alert`, and the alert loop
in `monitor_files` — which catches only `KeyboardInterrupt` — propagates it,
aborting the cycle and the monitoring loop (the spec's variant (b), not the
claimed variant (a)). -/
theorem C1_template_keyerror_propagates (env : List (String × String))
    (transport : Option Nat) (filename : List Char) (line_number : Nat)
    (line : List Char) (template : List Char)
    (groupdict : List (String × String)) (e : String)
    (h : formatTemplate (alertVars filename line_number line groupdict) template =
      .error e) :
    alert_run env transport filename line_number line template groupdict =
      .error e
    ∧ ∀ (cfg : PatternConfig) (m : MatchObj)
        (rest : List (PatternConfig × MatchObj)),
        cfg.template = template → m.groupdict = groupdict →
        process_matches env transport filename line_number line
          ((cfg, m) :: rest) = .error e := by
  have halert : alert_run env transport filename line_number line template
      groupdict = .error e := by
    unfold alert_run
    rw [h]
    rfl
  refine ⟨halert, ?_⟩
  intro cfg m rest ht hg
  rw [process_matches, ht, hg, halert]
  rfl

/-- Witness for C1's amended claim at the concrete missing-variable input. -/
theorem C1_template_keyerror_propagates_witness :
    formatTemplate
      (alertVars "app.log".data 1 "ERROR 42".data []) "Error {code}".data =
      .error "code"
    ∧ alert_run [] none "app.log".data 1 "ERROR 42".data "Error {code}".data [] =
      .error "code" :=
  ⟨by decide,
   (C1_template_keyerror_propagates [] none "app.log".data 1 "ERROR 42".data
     "Error {code}".data [] "code" (by decide)).1⟩

/-- Claim C3 is contradicted by the code: `monitor_files` reads
`self.file_positions.get(file_path, 0) + line_num` AFTER `read_new_content`
has already advanced the stored position, so the `line_number` handed to
the formatter is a byte offset plus the batch index.  For the very first
line ever emitted from a file registered at size 0 (content `"X\n"`,
pattern `X`, template `"{line_number}"`), the alert message formats the
value 3 (offset 2 + index 1), where the claim (and the program's own help
text describing `line_number` as the line number of the match) requires 1.
-/
theorem C3_line_number_is_offset_based :
    process_file [("API_KEY", "k"), ("API_URL", "u")] (some 200)
      [⟨Pat.lit [ 'X' ], "{line_number}".data, "X"⟩] "app.log".data
      (some [0x58, 0x0A]) ⟨0, 0⟩ =
      .ok ([[ '3' ]], ⟨2, 2⟩) := by decide

/-- Counterexample to claim C6 as stated: with `API_KEY` absent from the
environment, a single matching line makes `send_api_notification` raise
`KeyError` before its `try` block, and the error escapes the loop body —
a steady-state error that terminates the monitor. -/
theorem C6_counterexample :
    send_api_notification [] (some 200) = .error "KeyError: API_KEY"
    ∧ process_file [] (some 200) [⟨Pat.lit [ 'X' ], "hit".data, "X"⟩]
        "app.log".data (some [0x58, 0x0A]) ⟨0, 0⟩ = .error "KeyError: API_KEY" :=
  ⟨by decide, by decide⟩

/-- Claim C6 amended: steady-state containment is partial.  File
I/O/decode errors are contained (the reader's handler yields no lines, the
missing-file check yields no lines), and notification transport failures
are contained (`False` is returned for a non-200 status or a transport
exception); but a missing `API_KEY` (or `API_URL`) environment variable is
read outside the dispatcher's `try` block and raises `KeyError`, which —
like a template `KeyError` — propagates through the loop body, whose only
handler is for `KeyboardInterrupt`, terminating the process. -/
theorem C6_steady_state_error_containment :
    (∀ (c : List Nat) (st : MonitorState),
      utf8Decode (chunkOf c st.position) = none →
        read_new_content (some c) st = ([], st))
    ∧ (∀ st : MonitorState, read_new_content none st = ([], st))
    ∧ (∀ (env : List (String × String)) (transport : Option Nat),
        (dictGet env "API_KEY").isSome → (dictGet env "API_URL").isSome →
        send_api_notification env transport = .ok (transport == some 200))
    ∧ (∀ (env : List (String × String)) (transport : Option Nat),
        dictGet env "API_KEY" = none →
        send_api_notification env transport = .error "KeyError: API_KEY") := by
  refine ⟨fun c st h => read_eq_of_decode_none h, fun st => rfl, ?_, ?_⟩
  · intro env transport h1 h2
    unfold send_api_notification
    obtain ⟨k, hk⟩ := Option.isSome_iff_exists.mp h1
    obtain ⟨u, hu⟩ := Option.isSome_iff_exists.mp h2
    rw [hk, hu]
    cases transport with
    | none => rfl
    | some status => rfl
  · intro env transport h
    unfold send_api_notification
    rw [h]

/-- Witness for C6's amended claim: a transport exception with both
variables present is contained as a `False` result; a missing `API_KEY` is
a raised `KeyError`. -/
theorem C6_steady_state_error_containment_witness :
    send_api_notification [("API_KEY", "k"), ("API_URL", "u")] none = .ok false
    ∧ send_api_notification [] none = .error "KeyError: API_KEY" := by
  have h := C6_steady_state_error_containment
  exact ⟨(h.2.2.1 [("API_KEY", "k"), ("API_URL", "u")] none (by decide)
    (by decide)).trans (by decide), h.2.2.2 [] none (by decide)⟩

theorem compile_patterns_error_at (compile : String → Except ReError Pat)
    (tts : List String) :
    ∀ (j : Nat) (ps : List String) (i : Nat) (p : String) (err : ReError),
    ps.get? j = some p → compile p = .error err →
    (∀ k q, k < j → ps.get? k = some q → ∃ cp, compile q = .ok cp) →
    (∀ k, k < j → tts.get? (i + k) ≠ none) →
    compile_patterns compile tts i ps =
      .error (.valueError (_format_regex_compile_error (i + j) p err)) := by
  intro j
  induction j with
  | zero =>
    intro ps i p err hj herr hfirst htts
    match ps with
    | [] => simp [List.get?] at hj
    | q :: rest =>
      rw [List.get?_cons_zero] at hj
      cases hj
      rw [compile_patterns, herr]
      rfl
  | succ j ih =>
    intro ps i p err hj herr hfirst htts
    match ps with
    | [] => simp [List.get?] at hj
    | q :: rest =>
      obtain ⟨cp, hcp⟩ := hfirst 0 q (Nat.succ_pos j) rfl
      obtain ⟨t, ht⟩ : ∃ t, tts.get? i = some t := by
        have h0 := htts 0 (Nat.succ_pos j)
        rw [Nat.add_zero] at h0
        cases h' : tts.get? i with
        | none => exact absurd h' h0
        | some t => exact ⟨t, rfl⟩
      rw [List.get?_cons_succ] at hj
      rw [compile_patterns, hcp, ht,
        ih rest (i + 1) p err hj herr
          (fun k qq hk hkq => hfirst (k + 1) qq (by omega) (by simpa using hkq))
          (fun k hk => by
            have hx := htts (k + 1) (by omega)
            rwa [show i + (k + 1) = i + 1 + k from by omega] at hx)]
      rw [show i + 1 + j = i + (j + 1) from by omega]
      rfl

theorem format_regex_error_decompose (i : Nat) (p : String) (err : ReError) :
    ∃ body : List String,
      _format_regex_compile_error i p err =
        String.mk (joinNl
          ((("Invalid regular expression for --regex #" ++ toString (i + 1) ++
            ": " ++ pyRepr p) :: (body ++ ["re.error: " ++ err.msg])).map
            String.data)) :=
  ⟨_, rfl⟩

/-- Claim C10: with a malformed pattern at position `j` (all earlier ones
compiling), startup fails before the monitoring loop with exit status 1 and
the diagnostic built by `_format_regex_compile_error`; that diagnostic's
first line pinpoints the 1-based pattern index and the `repr` of the
offending source text, its last line carries the regex engine's own
message, and when the engine reports a position (`pos` attribute, single
line pattern), the message is exactly a four-line diagnostic whose caret
line points at column `pos + 1`. -/
theorem C10_malformed_regex_fails_fast (compile : String → Except ReError Pat)
    (ps ts : List String) (j : Nat) (p : String) (err : ReError)
    (hcount : ps.length = ts.length)
    (hj : ps.get? j = some p)
    (herr : compile p = .error err)
    (hfirst : ∀ k q, k < j → ps.get? k = some q → ∃ cp, compile q = .ok cp) :
    main_startup compile ps ts = .error (1, _format_regex_compile_error j p err)
    ∧ (∃ t, (_format_regex_compile_error j p err).data =
        ("Invalid regular expression for --regex #" ++ toString (j + 1) ++ ": " ++
          pyRepr p).data ++ '\n' :: t)
    ∧ (∃ s, (_format_regex_compile_error j p err).data =
        s ++ '\n' :: ("re.error: " ++ err.msg).data)
    ∧ (∀ pv : Int, err.lineno = none → err.colno = none → err.pos = some pv →
        0 ≤ pv → splitlines p.data = [p.data] →
        _format_regex_compile_error j p err =
          String.mk (("Invalid regular expression for --regex #" ++
              toString (j + 1) ++ ": " ++ pyRepr p).data ++
            '\n' :: (("  Line 1: " ++ p).data ++
            '\n' :: ((List.replicate (10 + pv.toNat) ' ' ++ [ '^' ]) ++
            '\n' :: ("re.error: " ++ err.msg).data)))) := by
  have hjlt : j < ps.length := by
    cases h' : ps.get? j with
    | none => rw [h'] at hj; cases hj
    | some a => exact (List.get?_eq_some.mp h').1
  refine ⟨?_, ?_, ?_, ?_⟩
  · have hloop := compile_patterns_error_at compile ts j ps 0 p err hj herr hfirst
      (fun k hk => by
        rw [Nat.zero_add]
        intro hnone
        rw [List.get?_eq_none] at hnone
        omega)
    unfold main_startup
    rw [if_neg (by omega)]
    rw [Nat.zero_add] at hloop
    rw [hloop]
  · obtain ⟨body, hb⟩ := format_regex_error_decompose j p err
    rw [hb]
    cases hbt : (body ++ ["re.error: " ++ err.msg]).map String.data with
    | nil => simp at hbt
    | cons y t' =>
      rw [List.map_cons, hbt, joinNl_cons_cons]
      exact ⟨joinNl (y :: t'), rfl⟩
  · obtain ⟨body, hb⟩ := format_regex_error_decompose j p err
    rw [hb]
    rw [show (("Invalid regular expression for --regex #" ++ toString (j + 1) ++
      ": " ++ pyRepr p) :: (body ++ ["re.error: " ++ err.msg])) =
      ((("Invalid regular expression for --regex #" ++ toString (j + 1) ++
      ": " ++ pyRepr p) :: body) ++ ["re.error: " ++ err.msg]) from by simp]
    rw [List.map_append,
      show List.map String.data ["re.error: " ++ err.msg] =
        [("re.error: " ++ err.msg).data] from rfl,
      joinNl_append_singleton _ _ (by simp)]
    exact ⟨joinNl ((("Invalid regular expression for --regex #" ++
      toString (j + 1) ++ ": " ++ pyRepr p) :: body).map String.data), rfl⟩
  · intro pv hln hcn hpos hpv hsplit
    unfold _format_regex_compile_error
    rw [hln, hcn, hpos, hsplit]
    dsimp only
    rw [if_pos hpv]
    rw [if_neg (show ¬([p.data] = []) by simp)]
    dsimp only
    rw [if_pos (show (0 : Int) < pv + 1 from by omega)]
    rw [show ((1 : Int).toNat - 1) = 0 from rfl]
    rw [show toString (1 : Int) = "1" from rfl]
    rw [show pv + 1 - 1 = pv from by omega]
    rw [show ("  Line " ++ "1" ++ ": ").length = 10 from rfl]
    rw [if_pos (show (1 : Int) ≤ 1 ∧ (1 : Int) ≤ (([p.data].length : Nat) : Int)
      from by simp)]
    rfl

/-- Witness for C10: a single malformed pattern whose engine error carries
position 0 — startup exits with status 1 and the four-line caret
diagnostic, before the loop. -/
theorem C10_malformed_regex_fails_fast_witness :
    main_startup
      (fun s => if s = "[bad" then
          .error ⟨"unterminated character set at position 0", none, none, some 0⟩
        else .ok (Pat.lit s.data))
      ["[bad"] ["Error: {match}"] =
      .error (1, "Invalid regular expression for --regex #1: '[bad'\n  Line 1: [bad\n          ^\nre.error: unterminated character set at position 0") := by
  have h := C10_malformed_regex_fails_fast
    (fun s => if s = "[bad" then
        .error ⟨"unterminated character set at position 0", none, none, some 0⟩
      else .ok (Pat.lit s.data))
    ["[bad"] ["Error: {match}"] 0 "[bad"
    ⟨"unterminated character set at position 0", none, none, some 0⟩
    rfl rfl (by decide) (fun k q hk _ => absurd hk (Nat.not_lt_zero k))
  exact h.1.trans (by decide)

end LogMonitor
